import Mathlib

/-!
Shallow embedding of the magog repository fragment
(src/util/core.hpp and src/util/transform.cpp) and verification of the
frozen claims about it.

Conventions of the embedding:
* `float` values are modelled as real numbers (`ℝ`); float division by
  zero is therefore Lean's total division (`x / 0 = 0`).
* `size_t` arithmetic is modelled as natural numbers reduced modulo
  `2 ^ 64` after every overflowing operation.
* `Gl_Matrix` (declared in a header that is not part of the snapshot;
  the 16-entry brace initializer fills the matrix row by row and
  `m[i][j]` selects row `i`, column `j`) is modelled as
  `Matrix (Fin 4) (Fin 4) ℝ` built with the `!![…]` literal.
* the `BOOST_ASSERT` precondition checks, which abort the process in a
  debug build and vanish under `NDEBUG`, are modelled by `…Checked`
  variants returning `Option`: a `dbg : Bool` flag selects the build
  mode, `none` is the fatal-diagnostic exit, `some m` is a normal
  return of the matrix `m`.
-/

namespace Magog

open Matrix

/-! ## String hasher (src/util/core.hpp) -/

/-- `size_t` modulus: the hash arithmetic wraps at 64 bits. -/
def WORD : ℕ := 2 ^ 64

/-- One XOR-then-multiply step of the fold, in `size_t` arithmetic. -/
def hashStep (h c : ℕ) : ℕ := ((h ^^^ c) * 16777619) % WORD

/-- The `_hash_calc<N, I>::apply` template recursion from core.hpp,
with the suffix `s[I], …, s[N-1]` of the character array represented as
a list of byte values: `apply` on the empty suffix (`I = N`) returns
the seed `2166136261`, and otherwise
`(_hash_calc<N, I+1>::apply(s) ^ s[I]) * 16777619`. -/
def hash_calc : List ℕ → ℕ
  | [] => 2166136261
  | c :: rest => ((hash_calc rest) ^^^ c) * 16777619 % WORD

/-- `const_hash` from core.hpp: the fold applied to the whole
character array, the null-terminator slot included. -/
def const_hash (s : List ℕ) : ℕ := hash_calc s

/-- Modelled from the spec: the run-time `hash(const char* s)` is only
declared in core.hpp (its definition lies outside the snapshot).  The
spec describes it as the run-time equivalent over a null-terminated
string, "the same FNV-1a-style fold" — i.e. the standard FNV-1a loop:
start from the seed 2166136261 and fold XOR-then-multiply over the
content bytes, first to last, stopping at (and not consuming) the null
terminator.  The argument is the list of content bytes. -/
def hash (s : List ℕ) : ℕ := s.foldl hashStep 2166136261

theorem hash_calc_eq_foldl (s : List ℕ) :
    hash_calc s = s.reverse.foldl hashStep 2166136261 := by
  rw [List.foldl_reverse]
  induction s with
  | nil => rfl
  | cons c rest ih => simp [hash_calc, hashStep, List.foldr_cons, ih]

/-- C7: `const_hash` computes the FNV-1a-style fold with seed
2166136261 and multiplier 16777619, XOR-ing then multiplying per byte,
processing the array from its last index (the null-terminator slot,
included in the fold) down to index 0 — equivalently, it is the
forward fold over the reversed array; and on the array of the empty
string literal, `{0}`, the digest is `(2166136261 ^^^ 0) * 16777619`,
not the bare seed. -/
theorem const_hash_folds_backward :
    (∀ s : List ℕ, const_hash s = s.reverse.foldl hashStep 2166136261) ∧
    const_hash [0] = (2166136261 ^^^ 0) * 16777619 ∧
    const_hash [0] ≠ 2166136261 := by
  refine ⟨hash_calc_eq_foldl, by decide, by decide⟩

/-- C6 counterexample: on the empty string the run-time hash (the
standard forward FNV-1a fold over the content, null terminator
excluded — modelled from the spec) and the compile-time `const_hash`
(over the terminated array `{0}`) give different digests. -/
theorem hash_ne_const_hash_empty : hash [] ≠ const_hash [0] := by
  decide

/-- C6 amended: the two digests differ in general; the precise
relation is that `const_hash` over the terminated array equals the
run-time `hash` applied to the *reversed* array, with the null
terminator byte taking part as ordinary content. -/
theorem const_hash_eq_hash_reverse (content : List ℕ) :
    const_hash (content ++ [0]) = hash ((content ++ [0]).reverse) := by
  rw [const_hash, hash_calc_eq_foldl]; rfl

/-! ## Transform builder (src/util/transform.cpp) -/

/-- `Gl_Matrix`: 4×4 float matrix, the brace initializer filling it
row by row. -/
abbrev Mat4 := Matrix (Fin 4) (Fin 4) ℝ

/-- 3×3 real matrix (for statements about the rotation block). -/
abbrev Mat3 := Matrix (Fin 3) (Fin 3) ℝ

/-- `Vec3f`: three float components, `v[0], v[1], v[2]`. -/
structure Vec3f where
  x : ℝ
  y : ℝ
  z : ℝ

/-- Modelled from the spec: `Vec3f::normalize` (declared in a header
outside the snapshot; the spec says `Vec3` "supports normalization
(scale to unit length)") divides each component by the Euclidean
length. -/
noncomputable def Vec3f.normalize (v : Vec3f) : Vec3f :=
  let n := Real.sqrt (v.x ^ 2 + v.y ^ 2 + v.z ^ 2)
  ⟨v.x / n, v.y / n, v.z / n⟩

/-- `frustum` from transform.cpp (OpenGL Programming Guide p. 807). -/
noncomputable def frustum (l r b t n f : ℝ) : Mat4 :=
  !![2*n / (r - l), 0,             (r + l) / (r - l),  0;
     0,             2*n / (t - b), (t + b) / (t - b),  0;
     0,             0,             -(f + n) / (f - n), -2*f*n / (f - n);
     0,             0,             -1,                 0]

/-- `ortho` from transform.cpp (OpenGL Programming Guide p. 808). -/
noncomputable def ortho (l r b t n f : ℝ) : Mat4 :=
  !![2 / (r - l), 0,           0,            -(r + l) / (r - l);
     0,           2 / (t - b), 0,            -(t + b) / (t - b);
     0,           0,           -2 / (f - n), (f + n) / (f - n);
     0,           0,           0,            0]

/-- `perspective` from transform.cpp:
`fh = tan(v_fov / 360 * pi) * z_near`, `fw = fh * aspect`, then
delegate to `frustum(-fw, fw, -fh, fh, z_near, z_far)`. -/
noncomputable def perspective (v_fov aspect z_near z_far : ℝ) : Mat4 :=
  let fh := Real.tan (v_fov / 360 * Real.pi) * z_near
  let fw := fh * aspect
  frustum (-fw) fw (-fh) fh z_near z_far

/-- `Gl_Matrix::unit()`, modelled from the spec ("builds an identity
matrix"): the identity. -/
def Gl_Matrix_unit : Mat4 := 1

/-- `translation` from transform.cpp: start from `unit()`, then write
`result[3][i] = delta[i]` for `i = 0, 1, 2`. -/
noncomputable def translation (delta : Vec3f) : Mat4 :=
  Matrix.of fun i j =>
    if i = 3 ∧ j = 0 then delta.x
    else if i = 3 ∧ j = 1 then delta.y
    else if i = 3 ∧ j = 2 then delta.z
    else Gl_Matrix_unit i j

/-- Body of the axis-angle `rotation` overload: the matrix literal of
transform.cpp with the locals `x y z c s` abstracted. -/
noncomputable def rotationBody (x y z c s : ℝ) : Mat4 :=
  !![c + x*x*(1 - c),   x*y*(1 - c) - z*s, x*z*(1 - c) + y*s, 0;
     y*x*(1 - c) + z*s, c + y*y*(1 - c),   y*z*(1 - c) - x*s, 0;
     z*x*(1 - c) - y*s, z*y*(1 - c) + x*s, c + z*z*(1 - c),   0;
     0,                 0,                 0,                 1]

/-- `rotation(const Vec3f& axis, float angle)` from transform.cpp:
normalize a copy of the axis, take `c = cos(angle)`, `s = sin(angle)`
and fill the Rodrigues matrix. -/
noncomputable def rotation (axis : Vec3f) (angle : ℝ) : Mat4 :=
  let u := axis.normalize
  rotationBody u.x u.y u.z (Real.cos angle) (Real.sin angle)

/-- `Quaternion`: four float components `q[0] … q[3]`, `q[0]` the
scalar part. -/
structure Quaternion4 where
  q0 : ℝ
  q1 : ℝ
  q2 : ℝ
  q3 : ℝ

/-- `rotation(const Quaternion& q)` from transform.cpp (matrix FAQ
formula). -/
noncomputable def rotationQ (q : Quaternion4) : Mat4 :=
  !![1 - (2*q.q2*q.q2 + 2*q.q3*q.q3), 2*q.q1*q.q2 + 2*q.q3*q.q0,       2*q.q1*q.q3 - 2*q.q2*q.q0,       0;
     2*q.q1*q.q2 - 2*q.q3*q.q0,       1 - (2*q.q1*q.q1 + 2*q.q3*q.q3), 2*q.q2*q.q3 + 2*q.q1*q.q0,       0;
     2*q.q1*q.q3 + 2*q.q2*q.q0,       2*q.q2*q.q3 - 2*q.q1*q.q0,       1 - (2*q.q1*q.q1 + 2*q.q2*q.q2), 0;
     0,                               0,                               0,                               1]

/-- The canonical axis-angle-to-quaternion conversion named by the
claim: `q = (cos(angle/2), sin(angle/2) · normalize(axis))`. -/
noncomputable def axisAngleQuat (axis : Vec3f) (angle : ℝ) : Quaternion4 :=
  let u := axis.normalize
  ⟨Real.cos (angle / 2),
   Real.sin (angle / 2) * u.x,
   Real.sin (angle / 2) * u.y,
   Real.sin (angle / 2) * u.z⟩

/-- Upper-left 3×3 block of a 4×4 matrix. -/
def upperLeft3 (M : Mat4) : Mat3 :=
  Matrix.of fun i j => M i.castSucc j.castSucc

/-! ### The `BOOST_ASSERT` precondition checks

`frustum` and `ortho` begin with `BOOST_ASSERT(l != r)`,
`BOOST_ASSERT(b != t)`, `BOOST_ASSERT(n != f)`; in a debug build a
failed assert is the fatal diagnostic (modelled `none`), under
`NDEBUG` the asserts vanish and the formula is evaluated unchecked. -/

/-- `frustum` with its assertion layer; `dbg = true` is a build with
assertions enabled. -/
noncomputable def frustumChecked (dbg : Bool) (l r b t n f : ℝ) :
    Option Mat4 :=
  if dbg ∧ (l = r ∨ b = t ∨ n = f) then none
  else some (frustum l r b t n f)

/-- `ortho` with its assertion layer. -/
noncomputable def orthoChecked (dbg : Bool) (l r b t n f : ℝ) :
    Option Mat4 :=
  if dbg ∧ (l = r ∨ b = t ∨ n = f) then none
  else some (ortho l r b t n f)

/-- `perspective` with the assertion layer it inherits from `frustum`;
`perspective` itself performs no check. -/
noncomputable def perspectiveChecked (dbg : Bool)
    (v_fov aspect z_near z_far : ℝ) : Option Mat4 :=
  let fh := Real.tan (v_fov / 360 * Real.pi) * z_near
  let fw := fh * aspect
  frustumChecked dbg (-fw) fw (-fh) fh z_near z_far

/-! ## C1, C2: the projection formulas -/

/-- The off-center perspective matrix exactly as the claim writes it:
first row `(2n/(r-l), 0, (r+l)/(r-l), 0)`, second row
`(0, 2n/(t-b), (t+b)/(t-b), 0)`, third row
`(0, 0, -(f+n)/(f-n), -2fn/(f-n))`, fourth row `(0, 0, -1, 0)`. -/
noncomputable def frustumSpec (l r b t n f : ℝ) : Mat4 :=
  !![2*n / (r - l), 0,             (r + l) / (r - l),    0;
     0,             2*n / (t - b), (t + b) / (t - b),    0;
     0,             0,             -((f + n) / (f - n)), -(2*f*n / (f - n));
     0,             0,             -1,                   0]

/-- The orthographic matrix the claim describes: first three rows the
standard closed-form (scalings `2/(r-l)`, `2/(t-b)`, `-2/(f-n)` with
the corresponding standard translation terms `-(r+l)/(r-l)`,
`-(t+b)/(t-b)`, `-(f+n)/(f-n)`), last row all zero. -/
noncomputable def orthoSpec (l r b t n f : ℝ) : Mat4 :=
  !![2 / (r - l), 0,           0,              -((r + l) / (r - l));
     0,           2 / (t - b), 0,              -((t + b) / (t - b));
     0,           0,           -(2 / (f - n)), -((f + n) / (f - n));
     0,           0,           0,              0]

/-- The orthographic matrix as the code actually builds it: identical
to `orthoSpec` except that the third row's translation term is
`+(f+n)/(f-n)`, sign-flipped from the standard `-(f+n)/(f-n)`. -/
noncomputable def orthoSpecAmended (l r b t n f : ℝ) : Mat4 :=
  !![2 / (r - l), 0,           0,              -((r + l) / (r - l));
     0,           2 / (t - b), 0,              -((t + b) / (t - b));
     0,           0,           -(2 / (f - n)), (f + n) / (f - n);
     0,           0,           0,              0]

/-- C1: for every input with `l ≠ r`, `b ≠ t`, `n ≠ f`, `frustum`
returns exactly the standard OpenGL off-center perspective matrix of
the claim. -/
theorem frustum_matches_spec (l r b t n f : ℝ)
    (h1 : l ≠ r) (h2 : b ≠ t) (h3 : n ≠ f) :
    frustum l r b t n f = frustumSpec l r b t n f := by
  ext i j
  fin_cases i <;> fin_cases j <;> simp [frustum, frustumSpec] <;> ring

/-- C1 witness: a concrete non-degenerate input. -/
theorem frustum_matches_spec_witness :
    (0 : ℝ) ≠ 1 ∧ (0 : ℝ) ≠ 1 ∧ (1 : ℝ) ≠ 2 ∧
    frustum 0 1 0 1 1 2 = frustumSpec 0 1 0 1 1 2 :=
  ⟨by norm_num, by norm_num, by norm_num,
   frustum_matches_spec 0 1 0 1 1 2 (by norm_num) (by norm_num) (by norm_num)⟩

/-- C2 counterexample: at `(l,r,b,t,n,f) = (0,1,0,1,1,3)` the code's
`ortho` differs from the claim's matrix — the code's entry `[2][3]` is
`(f+n)/(f-n) = 2`, the standard translation term is
`-(f+n)/(f-n) = -2`. -/
theorem ortho_ne_orthoSpec : ortho 0 1 0 1 1 3 ≠ orthoSpec 0 1 0 1 1 3 := by
  intro h
  have h23 := congrFun (congrFun h 2) 3
  norm_num [ortho, orthoSpec] at h23

/-- C2 amended: for every input with `l ≠ r`, `b ≠ t`, `n ≠ f`,
`ortho` returns the matrix whose first two rows follow the standard
orthographic formula, whose third row has the standard scaling
`-2/(f-n)` but the translation term `+(f+n)/(f-n)` (sign-flipped from
the canonical `-(f+n)/(f-n)`), and whose last row is entirely zero —
`(0,0,0,0)`, not the canonical `(0,0,0,1)`. -/
theorem ortho_matches_amended_spec (l r b t n f : ℝ)
    (h1 : l ≠ r) (h2 : b ≠ t) (h3 : n ≠ f) :
    ortho l r b t n f = orthoSpecAmended l r b t n f := by
  ext i j
  fin_cases i <;> fin_cases j <;> simp [ortho, orthoSpecAmended] <;> ring

/-- C2 witness: a concrete non-degenerate input. -/
theorem ortho_matches_amended_spec_witness :
    (0 : ℝ) ≠ 1 ∧ (0 : ℝ) ≠ 1 ∧ (1 : ℝ) ≠ 3 ∧
    ortho 0 1 0 1 1 3 = orthoSpecAmended 0 1 0 1 1 3 :=
  ⟨by norm_num, by norm_num, by norm_num,
   ortho_matches_amended_spec 0 1 0 1 1 3 (by norm_num) (by norm_num) (by norm_num)⟩

/-! ## C3, C10: perspective -/

/-- C3: for every vertical field of view in `(0°, 180°)` and every
positive aspect ratio, `perspective` returns exactly
`frustum (-w) w (-h) h z_near z_far` with
`h = tan(fov/2 in radians) * z_near` and `w = h * aspect`; and (second
conjunct) in either build mode it delegates to the checked `frustum`
without any precondition check of its own. -/
theorem perspective_eq_frustum (v_fov aspect z_near z_far : ℝ)
    (h1 : 0 < v_fov) (h2 : v_fov < 180) (h3 : 0 < aspect) :
    perspective v_fov aspect z_near z_far =
      frustum (-(Real.tan (v_fov / 2 * (Real.pi / 180)) * z_near * aspect))
              (Real.tan (v_fov / 2 * (Real.pi / 180)) * z_near * aspect)
              (-(Real.tan (v_fov / 2 * (Real.pi / 180)) * z_near))
              (Real.tan (v_fov / 2 * (Real.pi / 180)) * z_near)
              z_near z_far ∧
    ∀ dbg : Bool, perspectiveChecked dbg v_fov aspect z_near z_far =
      frustumChecked dbg
              (-(Real.tan (v_fov / 2 * (Real.pi / 180)) * z_near * aspect))
              (Real.tan (v_fov / 2 * (Real.pi / 180)) * z_near * aspect)
              (-(Real.tan (v_fov / 2 * (Real.pi / 180)) * z_near))
              (Real.tan (v_fov / 2 * (Real.pi / 180)) * z_near)
              z_near z_far := by
  have harg : v_fov / 360 * Real.pi = v_fov / 2 * (Real.pi / 180) := by ring
  refine ⟨?_, fun dbg => ?_⟩
  · simp only [perspective]; rw [harg]
  · simp only [perspectiveChecked]; rw [harg]

/-- C3 witness: fov 90°, aspect 2, near 1, far 10. -/
theorem perspective_eq_frustum_witness :
    (0 : ℝ) < 90 ∧ (90 : ℝ) < 180 ∧ (0 : ℝ) < 2 ∧
    (perspective 90 2 1 10 =
      frustum (-(Real.tan (90 / 2 * (Real.pi / 180)) * 1 * 2))
              (Real.tan (90 / 2 * (Real.pi / 180)) * 1 * 2)
              (-(Real.tan (90 / 2 * (Real.pi / 180)) * 1))
              (Real.tan (90 / 2 * (Real.pi / 180)) * 1) 1 10 ∧
     ∀ dbg : Bool, perspectiveChecked dbg 90 2 1 10 =
      frustumChecked dbg
              (-(Real.tan (90 / 2 * (Real.pi / 180)) * 1 * 2))
              (Real.tan (90 / 2 * (Real.pi / 180)) * 1 * 2)
              (-(Real.tan (90 / 2 * (Real.pi / 180)) * 1))
              (Real.tan (90 / 2 * (Real.pi / 180)) * 1) 1 10) :=
  ⟨by norm_num, by norm_num, by norm_num,
   perspective_eq_frustum 90 2 1 10 (by norm_num) (by norm_num) (by norm_num)⟩

/-- C10: with `v_fov = 0` (any near plane) or with `z_near = 0` (any
field of view) the computed half-extents vanish, so `perspective`
hands `frustum` a volume with `left = right` and `bottom = top`; in a
build with assertions enabled the delegated check fires (fatal
diagnostic, `none`) even though `perspective` checks nothing itself. -/
theorem perspective_degenerate_asserts (aspect z_near z_far v_fov : ℝ) :
    perspective 0 aspect z_near z_far = frustum 0 0 0 0 z_near z_far ∧
    perspectiveChecked true 0 aspect z_near z_far = none ∧
    perspective v_fov aspect 0 z_far = frustum 0 0 0 0 0 z_far ∧
    perspectiveChecked true v_fov aspect 0 z_far = none := by
  have h0 : Real.tan (0 / 360 * Real.pi) = 0 := by
    norm_num [Real.tan_zero]
  refine ⟨?_, ?_, ?_, ?_⟩ <;>
    simp [perspective, perspectiveChecked, frustumChecked, h0]

/-! ## C8: the assertion layer of frustum and ortho -/

/-- C8: with assertions enabled (`dbg = true`), a call with
`l = r`, `b = t` or `n = f` is the fatal diagnostic (`none`); with
assertions disabled (`dbg = false`) the same call performs no check
and returns the formula matrix, its offending denominators zero. -/
theorem degenerate_bounds_assert (l r b t n f : ℝ)
    (h : l = r ∨ b = t ∨ n = f) :
    frustumChecked true l r b t n f = none ∧
    orthoChecked true l r b t n f = none ∧
    frustumChecked false l r b t n f = some (frustum l r b t n f) ∧
    orthoChecked false l r b t n f = some (ortho l r b t n f) := by
  refine ⟨?_, ?_, ?_, ?_⟩ <;> simp [frustumChecked, orthoChecked, h]

/-- C8 witness: `l = r = 1` (the other bounds non-degenerate). -/
theorem degenerate_bounds_assert_witness :
    ((1 : ℝ) = 1 ∨ (0 : ℝ) = 1 ∨ (0 : ℝ) = 1) ∧
    (frustumChecked true 1 1 0 1 0 1 = none ∧
     orthoChecked true 1 1 0 1 0 1 = none ∧
     frustumChecked false 1 1 0 1 0 1 = some (frustum 1 1 0 1 0 1) ∧
     orthoChecked false 1 1 0 1 0 1 = some (ortho 1 1 0 1 0 1)) :=
  ⟨Or.inl rfl, degenerate_bounds_assert 1 1 0 1 0 1 (Or.inl rfl)⟩

/-! ## C9: translation -/

/-- C9: `translation d` is the identity matrix except that the
components of `d` occupy the first three entries of the last row; so
the homogeneous origin row vector `(0,0,0,1)`, multiplied from the
left, is sent to `(d.x, d.y, d.z, 1)`. -/
theorem translation_formula (d : Vec3f) :
    translation d = !![1,   0,   0,   0;
                       0,   1,   0,   0;
                       0,   0,   1,   0;
                       d.x, d.y, d.z, 1] ∧
    Matrix.vecMul ![0, 0, 0, 1] (translation d) = ![d.x, d.y, d.z, 1] := by
  constructor
  · ext i j
    fin_cases i <;> fin_cases j <;>
      simp [translation, Gl_Matrix_unit, Matrix.one_apply]
  · funext j
    fin_cases j <;>
      simp [Matrix.vecMul, Matrix.dotProduct, Fin.sum_univ_four,
            translation, Gl_Matrix_unit, Matrix.one_apply]

/-! ## C4, C5: the rotation builders -/

/-- A vector other than `(0,0,0)` has non-zero squared length. -/
theorem Vec3f.sumsq_ne_zero (v : Vec3f) (hv : v ≠ ⟨0, 0, 0⟩) :
    v.x ^ 2 + v.y ^ 2 + v.z ^ 2 ≠ 0 := by
  obtain ⟨x, y, z⟩ := v
  intro h
  apply hv
  have hx : x = 0 := by
    have : x ^ 2 = 0 := by nlinarith [sq_nonneg x, sq_nonneg y, sq_nonneg z]
    exact pow_eq_zero_iff (by norm_num) |>.mp this
  have hy : y = 0 := by
    have : y ^ 2 = 0 := by nlinarith [sq_nonneg x, sq_nonneg y, sq_nonneg z]
    exact pow_eq_zero_iff (by norm_num) |>.mp this
  have hz : z = 0 := by
    have : z ^ 2 = 0 := by nlinarith [sq_nonneg x, sq_nonneg y, sq_nonneg z]
    exact pow_eq_zero_iff (by norm_num) |>.mp this
  simp [hx, hy, hz]

/-- Normalizing a vector of non-zero length yields a unit vector. -/
theorem Vec3f.normalize_unit (v : Vec3f)
    (hv : v.x ^ 2 + v.y ^ 2 + v.z ^ 2 ≠ 0) :
    (v.normalize).x ^ 2 + (v.normalize).y ^ 2 + (v.normalize).z ^ 2 = 1 := by
  obtain ⟨x, y, z⟩ := v
  simp only [Vec3f.normalize] at *
  have hpos : 0 < x ^ 2 + y ^ 2 + z ^ 2 :=
    lt_of_le_of_ne (by positivity) (Ne.symm hv)
  have hs : Real.sqrt (x ^ 2 + y ^ 2 + z ^ 2) ^ 2 = x ^ 2 + y ^ 2 + z ^ 2 :=
    Real.sq_sqrt hpos.le
  have hne : Real.sqrt (x ^ 2 + y ^ 2 + z ^ 2) ≠ 0 := by
    positivity
  field_simp

/-- `rotation` unfolded to its body at the normalized axis. -/
theorem rotation_eq (axis : Vec3f) (angle : ℝ) :
    rotation axis angle =
      rotationBody (axis.normalize).x (axis.normalize).y (axis.normalize).z
        (Real.cos angle) (Real.sin angle) := rfl

/-- The 3×3 Rodrigues block of the axis-angle matrix. -/
noncomputable def rotationBlock (x y z c s : ℝ) : Mat3 :=
  !![c + x*x*(1 - c),   x*y*(1 - c) - z*s, x*z*(1 - c) + y*s;
     y*x*(1 - c) + z*s, c + y*y*(1 - c),   y*z*(1 - c) - x*s;
     z*x*(1 - c) - y*s, z*y*(1 - c) + x*s, c + z*z*(1 - c)]

theorem upperLeft3_rotationBody (x y z c s : ℝ) :
    upperLeft3 (rotationBody x y z c s) = rotationBlock x y z c s := by
  ext i j
  fin_cases i <;> fin_cases j <;> rfl

/-- Transpose of the Rodrigues block, written out. -/
theorem rotationBlock_transpose (x y z c s : ℝ) :
    (rotationBlock x y z c s)ᵀ =
      !![c + x*x*(1 - c),   y*x*(1 - c) + z*s, z*x*(1 - c) - y*s;
         x*y*(1 - c) - z*s, c + y*y*(1 - c),   z*y*(1 - c) + x*s;
         x*z*(1 - c) + y*s, y*z*(1 - c) - x*s, c + z*z*(1 - c)] := by
  ext i j
  fin_cases i <;> fin_cases j <;> rfl

/-- Orthogonality of the Rodrigues block: for a unit axis and
`s² + c² = 1`, the block times its transpose is the identity. -/
theorem rotationBlock_mul_transpose (x y z c s : ℝ)
    (h1 : x ^ 2 + y ^ 2 + z ^ 2 = 1) (h2 : s ^ 2 + c ^ 2 = 1) :
    rotationBlock x y z c s * (rotationBlock x y z c s)ᵀ = 1 := by
  rw [rotationBlock_transpose]
  rw [show rotationBlock x y z c s =
      !![c + x*x*(1 - c),   x*y*(1 - c) - z*s, x*z*(1 - c) + y*s;
         y*x*(1 - c) + z*s, c + y*y*(1 - c),   y*z*(1 - c) - x*s;
         z*x*(1 - c) - y*s, z*y*(1 - c) + x*s, c + z*z*(1 - c)] from rfl]
  rw [Matrix.mul_fin_three, Matrix.one_fin_three]
  ext i j
  fin_cases i <;> fin_cases j <;> simp [Matrix.vecHead, Matrix.vecTail]
  all_goals first
    | linear_combination (x^2*(1 - c)^2 + s^2) * h1 + (1 - x^2) * h2
    | linear_combination (y^2*(1 - c)^2 + s^2) * h1 + (1 - y^2) * h2
    | linear_combination (z^2*(1 - c)^2 + s^2) * h1 + (1 - z^2) * h2
    | linear_combination (x*y*(1 - c)^2) * h1 - (x*y) * h2
    | linear_combination (x*z*(1 - c)^2) * h1 - (x*z) * h2
    | linear_combination (y*z*(1 - c)^2) * h1 - (y*z) * h2

/-- A 3×3 matrix with `B * Bᵀ = 1` preserves the dot product of a
vector with itself. -/
theorem mulVec_dot_self (B : Mat3) (hB : B * Bᵀ = 1) (w : Fin 3 → ℝ) :
    Matrix.dotProduct (B.mulVec w) (B.mulVec w) = Matrix.dotProduct w w := by
  have hBT : Bᵀ * B = 1 := Matrix.mul_eq_one_comm.mp hB
  calc Matrix.dotProduct (B.mulVec w) (B.mulVec w)
      = Matrix.dotProduct (Matrix.vecMul (B.mulVec w) B) w :=
        Matrix.dotProduct_mulVec _ _ _
    _ = Matrix.dotProduct (Matrix.mulVec Bᵀ (B.mulVec w)) w := by
        rw [Matrix.mulVec_transpose]
    _ = Matrix.dotProduct (Matrix.mulVec (Bᵀ * B) w) w := by
        rw [Matrix.mulVec_mulVec]
    _ = Matrix.dotProduct w w := by rw [hBT, Matrix.one_mulVec]

/-- C5: for a non-zero axis (unit or not) and any angle, the
upper-left 3×3 block of the axis-angle rotation matrix is orthogonal
(`B * Bᵀ = 1`) and application of the block preserves the squared
length (self dot product), hence the length, of every vector. -/
theorem rotation_block_orthogonal (axis : Vec3f) (angle : ℝ)
    (hv : axis ≠ ⟨0, 0, 0⟩) :
    upperLeft3 (rotation axis angle) * (upperLeft3 (rotation axis angle))ᵀ = 1 ∧
    ∀ w : Fin 3 → ℝ,
      Matrix.dotProduct ((upperLeft3 (rotation axis angle)).mulVec w)
          ((upperLeft3 (rotation axis angle)).mulVec w) =
        Matrix.dotProduct w w ∧
      Real.sqrt (Matrix.dotProduct ((upperLeft3 (rotation axis angle)).mulVec w)
          ((upperLeft3 (rotation axis angle)).mulVec w)) =
        Real.sqrt (Matrix.dotProduct w w) := by
  have hu := Vec3f.normalize_unit axis (Vec3f.sumsq_ne_zero axis hv)
  have h2 : (Real.sin angle) ^ 2 + (Real.cos angle) ^ 2 = 1 :=
    Real.sin_sq_add_cos_sq angle
  have horth : upperLeft3 (rotation axis angle) *
      (upperLeft3 (rotation axis angle))ᵀ = 1 := by
    rw [rotation_eq, upperLeft3_rotationBody]
    exact rotationBlock_mul_transpose _ _ _ _ _ hu h2
  refine ⟨horth, fun w => ?_⟩
  have hdot := mulVec_dot_self _ horth w
  exact ⟨hdot, by rw [hdot]⟩

/-- C5 witness: axis `(0,0,2)` (non-unit), angle `1`. -/
theorem rotation_block_orthogonal_witness :
    (⟨0, 0, 2⟩ : Vec3f) ≠ ⟨0, 0, 0⟩ ∧
    (upperLeft3 (rotation ⟨0, 0, 2⟩ 1) * (upperLeft3 (rotation ⟨0, 0, 2⟩ 1))ᵀ = 1 ∧
     ∀ w : Fin 3 → ℝ,
       Matrix.dotProduct ((upperLeft3 (rotation ⟨0, 0, 2⟩ 1)).mulVec w)
           ((upperLeft3 (rotation ⟨0, 0, 2⟩ 1)).mulVec w) =
         Matrix.dotProduct w w ∧
       Real.sqrt (Matrix.dotProduct ((upperLeft3 (rotation ⟨0, 0, 2⟩ 1)).mulVec w)
           ((upperLeft3 (rotation ⟨0, 0, 2⟩ 1)).mulVec w)) =
         Real.sqrt (Matrix.dotProduct w w)) :=
  ⟨by simp, rotation_block_orthogonal ⟨0, 0, 2⟩ 1 (by simp)⟩

/-- The axis-angle body equals the transpose of the quaternion matrix
whenever the axis is unit and `(c, s)` and `(ch, sh)` are related by
the half-angle identities. -/
theorem rotationBody_eq_quat_transpose (ux uy uz ch sh c s : ℝ)
    (hu : ux ^ 2 + uy ^ 2 + uz ^ 2 = 1)
    (hc : c = 1 - 2 * sh ^ 2) (hs : s = 2 * sh * ch) :
    rotationBody ux uy uz c s =
      (rotationQ ⟨ch, sh * ux, sh * uy, sh * uz⟩)ᵀ := by
  ext i j
  fin_cases i <;> fin_cases j <;>
    simp [rotationBody, rotationQ, Matrix.transpose_apply,
          Matrix.vecHead, Matrix.vecTail]
  all_goals first
    | linear_combination (1 - ux^2) * hc + (2 * sh^2) * hu
    | linear_combination (1 - uy^2) * hc + (2 * sh^2) * hu
    | linear_combination (1 - uz^2) * hc + (2 * sh^2) * hu
    | linear_combination (-(ux*uy)) * hc - uz * hs
    | linear_combination (-(ux*uy)) * hc + uz * hs
    | linear_combination (-(ux*uz)) * hc + uy * hs
    | linear_combination (-(ux*uz)) * hc - uy * hs
    | linear_combination (-(uy*uz)) * hc - ux * hs
    | linear_combination (-(uy*uz)) * hc + ux * hs

/-- C4 counterexample: axis `(0,0,1)`, angle `π/2`.  The two builders
disagree entry for entry: the axis-angle matrix has `-1` at `[0][1]`
where the quaternion matrix built from the canonical conversion has
`+1` (the two sources use transposed conventions). -/
theorem rotation_ne_rotationQ :
    rotation ⟨0, 0, 1⟩ (Real.pi / 2) ≠
      rotationQ (axisAngleQuat ⟨0, 0, 1⟩ (Real.pi / 2)) := by
  intro h
  have h01 := congrFun (congrFun h 0) 1
  have hn : Vec3f.normalize ⟨0, 0, 1⟩ = ⟨0, 0, 1⟩ := by
    simp [Vec3f.normalize]
  have hhalf : Real.pi / 2 / 2 = Real.pi / 4 := by ring
  rw [rotation_eq] at h01
  simp [rotationBody, rotationQ, axisAngleQuat, hn, hhalf,
        Real.cos_pi_div_two, Real.sin_pi_div_two,
        Real.cos_pi_div_four, Real.sin_pi_div_four] at h01
  have hsq : Real.sqrt 2 * Real.sqrt 2 = 2 := Real.mul_self_sqrt (by norm_num)
  nlinarith [h01, hsq]

/-- C4 amended: for every non-zero axis and every angle, the
axis-angle matrix is the TRANSPOSE of the quaternion matrix obtained
from the canonical conversion
`q = (cos(angle/2), sin(angle/2) · normalize(axis))`; the two
overloads agree entrywise only up to this transposition. -/
theorem rotation_eq_rotationQ_transpose (axis : Vec3f) (angle : ℝ)
    (hv : axis ≠ ⟨0, 0, 0⟩) :
    rotation axis angle = (rotationQ (axisAngleQuat axis angle))ᵀ := by
  have hu := Vec3f.normalize_unit axis (Vec3f.sumsq_ne_zero axis hv)
  have h2 : 2 * (angle / 2) = angle := by ring
  have hs := Real.sin_two_mul (angle / 2)
  rw [h2] at hs
  have hc0 := Real.cos_two_mul (angle / 2)
  rw [h2] at hc0
  have hpy := Real.sin_sq_add_cos_sq (angle / 2)
  have hc : Real.cos angle = 1 - 2 * Real.sin (angle / 2) ^ 2 := by
    linarith
  rw [rotation_eq,
      show axisAngleQuat axis angle =
        ⟨Real.cos (angle / 2),
         Real.sin (angle / 2) * (axis.normalize).x,
         Real.sin (angle / 2) * (axis.normalize).y,
         Real.sin (angle / 2) * (axis.normalize).z⟩ from rfl]
  exact rotationBody_eq_quat_transpose _ _ _ _ _ _ _ hu hc hs

/-- C4 witness (for the amended statement): axis `(1,2,2)`, angle 1. -/
theorem rotation_eq_rotationQ_transpose_witness :
    (⟨1, 2, 2⟩ : Vec3f) ≠ ⟨0, 0, 0⟩ ∧
    rotation ⟨1, 2, 2⟩ 1 = (rotationQ (axisAngleQuat ⟨1, 2, 2⟩ 1))ᵀ :=
  ⟨by simp, rotation_eq_rotationQ_transpose ⟨1, 2, 2⟩ 1 (by simp)⟩

end Magog
